import Mathlib

/-!
Shallow embedding of the Noise engine from src/Noise/Source/noise.cpp.

Doubles are modelled as rationals. The repository headers (noise.h, math2d.h,
math3d.h, spline.h, utils.h, perlin.h) are not under src/, so the leaf helpers
they declare are either modelled from the spec (with a doc comment saying so)
or abstracted into a `Fixture` of pure functions; everything defined in
noise.cpp itself is translated line by line from that file.
-/

namespace NoiseSpec

/-- Planar point (Point2D of math2d.h): a pair of coordinates. -/
structure Point2D where
  x : ℚ
  y : ℚ
deriving DecidableEq

/-- Spatial point (Point3D of math3d.h): planar coordinates plus elevation. -/
structure Point3D where
  x : ℚ
  y : ℚ
  z : ℚ
deriving DecidableEq

/-- Ordered pair of Point3D (Segment3D of math3d.h); may be zero-length. -/
structure Segment3D where
  a : Point3D
  b : Point3D
deriving DecidableEq

/-- Ordered pair of Point2D (Segment2D of math2d.h). -/
structure Segment2D where
  a : Point2D
  b : Point2D
deriving DecidableEq

/-- Modelled from the spec: the external pieces of the repository that are not
under src/. `perlin` is the Perlin control function of perlin.h; `draw s` is
the pair of variates produced by a RandomGenerator (utils.h) freshly seeded
with `s` and queried twice through std::uniform_real_distribution(eps, 1-eps)
(the pair depends only on the seed value, as in the source, so seed collisions
repeat points); `root` is the nonnegative square root used by the planar
distance and length helpers of math2d.h, kept abstract so that the development
stays executable (theorems that depend on its behaviour take explicit
monotonicity or sign hypotheses); `cacheX`/`cacheY` are the CACHE_X/CACHE_Y
window constants of noise.h. -/
structure Fixture where
  perlin : ℚ → ℚ → ℚ
  draw : ℤ → ℚ × ℚ
  root : ℚ → ℚ
  cacheX : ℕ
  cacheY : ℕ

/-- Engine configuration stored by Noise::Noise (noise.cpp lines 19-31). -/
structure NoiseConfig where
  noiseTopLeft : Point2D
  noiseBottomRight : Point2D
  perlinTopLeft : Point2D
  perlinBottomRight : Point2D
  seed : ℤ
  eps : ℚ
  displayPoints : Bool
  displaySegments : Bool
  displayGrid : Bool
deriving DecidableEq

/-- Engine state after construction: the immutable configuration plus the
point cache filled by InitPointCache. The fixed-size 2D buffer m_pointCache is
modelled as a total function on buffer indices; the lookup guard in
GeneratePointCached keeps all reads inside the window that InitPointCache
fills, exactly as in the source. -/
structure Noise where
  config : NoiseConfig
  pointCache : ℤ → ℤ → Point2D

/-- INT_MAX, i.e. std::numeric_limits of int (2^31 - 1). -/
def intMax : ℤ := 2147483647

/-- Embeds Noise::GenerateSeedNoise (noise.cpp lines 48-52):
(541*i + 79*j + m_seed) % INT_MAX with the C++ `%`, which is the truncated
remainder (sign of the dividend), `Int.tmod`. -/
def GenerateSeedNoise (seed i j : ℤ) : ℤ :=
  Int.tmod (541 * i + 79 * j + seed) intMax

/-- Embeds Noise::GeneratePoint (noise.cpp lines 54-65): seed a generator from
GenerateSeedNoise, draw two variates in [eps, 1-eps], return the jittered
point (x + px, y + py). -/
def GeneratePoint (F : Fixture) (cfg : NoiseConfig) (x y : ℤ) : Point2D :=
  ⟨(x : ℚ) + (F.draw (GenerateSeedNoise cfg.seed x y)).1,
   (y : ℚ) + (F.draw (GenerateSeedNoise cfg.seed x y)).2⟩

/-- Embeds Noise::Noise together with InitPointCache (noise.cpp lines 19-46):
the constructor stores the configuration unchanged and eagerly fills the cache;
the loop stores GeneratePoint(x, y) at buffer index (x + CACHE_X/2, y + CACHE_Y/2)
for the window -CACHE_X/2 <= x < CACHE_X/2, so as a function of the buffer
index the cache holds GeneratePoint(ix - CACHE_X/2, iy - CACHE_Y/2).
No validation of any kind is performed. -/
def mkNoise (F : Fixture) (cfg : NoiseConfig) : Noise :=
  ⟨cfg, fun ix iy =>
    GeneratePoint F cfg (ix - ((F.cacheX / 2 : ℕ) : ℤ)) (iy - ((F.cacheY / 2 : ℕ) : ℤ))⟩

/-- Embeds Noise::GeneratePointCached (noise.cpp lines 67-77): inside the
cache window, read the buffer; outside, generate directly. -/
def GeneratePointCached (F : Fixture) (e : Noise) (x y : ℤ) : Point2D :=
  if -((F.cacheX / 2 : ℕ) : ℤ) ≤ x ∧ x < ((F.cacheX / 2 : ℕ) : ℤ) ∧
     -((F.cacheY / 2 : ℕ) : ℤ) ≤ y ∧ y < ((F.cacheY / 2 : ℕ) : ℤ) then
    e.pointCache (x + ((F.cacheX / 2 : ℕ) : ℤ)) (y + ((F.cacheY / 2 : ℕ) : ℤ))
  else
    GeneratePoint F e.config x y

/-- Embeds Noise::GenerateNeighboringPoints5 (noise.cpp lines 79-96):
points[i][j] is the cached point of cell (cx + j - 2, cy + i - 2). -/
def GenerateNeighboringPoints5 (F : Fixture) (e : Noise) (cx cy : ℤ) :
    Fin 5 → Fin 5 → Point2D :=
  fun i j => GeneratePointCached F e (cx + (j : ℤ) - 2) (cy + (i : ℤ) - 2)

/-- Embeds Noise::GenerateNeighboringPoints7 (noise.cpp lines 98-115):
points[i][j] is the cached point of cell (cx + j - 3, cy + i - 3). -/
def GenerateNeighboringPoints7 (F : Fixture) (e : Noise) (cx cy : ℤ) :
    Fin 7 → Fin 7 → Point2D :=
  fun i j => GeneratePointCached F e (cx + (j : ℤ) - 3) (cy + (i : ℤ) - 3)

/-- Modelled from the spec: Remap of utils.h is not under src/; the spec calls
it a linear remap of a coordinate from one interval to another. -/
def Remap (v a b c d : ℚ) : ℚ :=
  (v - a) / (b - a) * (d - c) + c

/-- Embeds Noise::ComputeElevations (noise.cpp lines 117-133): remap each
point into control-function space and normalize (Perlin(x, y) + 1) / 2. -/
def ComputeElevations (F : Fixture) (cfg : NoiseConfig)
    (points : Fin 7 → Fin 7 → Point2D) : Fin 7 → Fin 7 → ℚ :=
  fun i j =>
    (F.perlin
      (Remap (points i j).x cfg.noiseTopLeft.x cfg.noiseBottomRight.x
        cfg.perlinTopLeft.x cfg.perlinBottomRight.x)
      (Remap (points i j).y cfg.noiseTopLeft.y cfg.noiseBottomRight.y
        cfg.perlinTopLeft.y cfg.perlinBottomRight.y) + 1) / 2

/-- DBL_MAX, i.e. std::numeric_limits of double, (2^53 - 1) * 2^971, written
out as a literal so that concrete evaluation never has to unfold a power. -/
def dblMax : ℚ := 179769313486231570814527423731704356798070567525844996598917476803157260780028538760589558632766878171540458953514382464234321326889464182768467546703537516986049910576551282076245490090389328944075868508455133942304583236903222948165808559332123348274797826204144723168738177180919299881250404026184124858368

/-- Row index (into the 7x7 window) of the cell owning segment slot s:
the source writes slot 5*(i-1) + (j-1) for rows i = 1..5 (noise.cpp line 165),
so slot s belongs to row s / 5 + 1. -/
def cellRow (s : Fin 25) : Fin 7 := ⟨s.val / 5 + 1, by omega⟩

/-- Column index (into the 7x7 window) of the cell owning segment slot s. -/
def cellCol (s : Fin 25) : Fin 7 := ⟨s.val % 5 + 1, by omega⟩

/-- Scan order of the 3x3 neighborhood search in GenerateSegments (noise.cpp
lines 149-160): k (row offset) is the outer loop, l (column offset) the inner
one, both ascending. -/
def scanOffsets : List (Fin 3 × Fin 3) :=
  (List.finRange 3).product (List.finRange 3)

/-- The nine positions scanned for segment slot s, in source scan order:
rows s/5 .. s/5+2, columns s%5 .. s%5+2 of the 7x7 window. -/
def candList (s : Fin 25) : List (Fin 7 × Fin 7) :=
  scanOffsets.map fun d =>
    (⟨s.val / 5 + (d.1 : ℕ), by omega⟩, ⟨s.val % 5 + (d.2 : ℕ), by omega⟩)

/-- One step of the lowest-neighbor search (noise.cpp lines 153-158): replace
the accumulator exactly when the candidate elevation is strictly lower. -/
def descentStep (acc c : ℚ × (Fin 7 × Fin 7)) : ℚ × (Fin 7 × Fin 7) :=
  if c.1 < acc.1 then c else acc

/-- The lowest-neighbor fold of GenerateSegments (noise.cpp lines 144-160):
lowestNeighborElevation starts at DBL_MAX with the cell itself as index, and
the 3x3 window is scanned in row-major order with a strict comparison. -/
def lowestNeighbor (e : Fin 7 → Fin 7 → ℚ) (s : Fin 25) : ℚ × (Fin 7 × Fin 7) :=
  ((candList s).map fun kl => (e kl.1 kl.2, kl)).foldl descentStep
    (dblMax, (cellRow s, cellCol s))

/-- Embeds Noise::GenerateSegments (noise.cpp lines 135-170): one directed
segment per interior cell, from the cell's own point (with its elevation) to
the lowest point found by the 3x3 scan (with the elevation the scan kept). -/
def GenerateSegments (F : Fixture) (cfg : NoiseConfig)
    (points : Fin 7 → Fin 7 → Point2D) : Fin 25 → Segment3D :=
  fun s =>
    let e := ComputeElevations F cfg points
    let m := lowestNeighbor e s
    ⟨⟨(points (cellRow s) (cellCol s)).x, (points (cellRow s) (cellCol s)).y,
      e (cellRow s) (cellCol s)⟩,
     ⟨(points m.2.1 m.2.2).x, (points m.2.1 m.2.2).y, m.1⟩⟩

/-- Modelled from the spec: SubdivideCatmullRomSpline of spline.h is not under
src/; the spec says the midpoint is the Catmull-Rom spline evaluated at
parameter 0.5 on four control points, which for the uniform Catmull-Rom spline
is (-p0 + 9*p1 + 9*p2 - p3) / 16 componentwise. -/
def SubdivideCatmullRomSpline (p0 p1 p2 p3 : Point3D) : Point3D :=
  ⟨(-p0.x + 9 * p1.x + 9 * p2.x - p3.x) / 16,
   (-p0.y + 9 * p1.y + 9 * p2.y - p3.y) / 16,
   (-p0.z + 9 * p1.z + 9 * p2.z - p3.z) / 16⟩

/-- Modelled from the spec: MidPoint of math3d.h is not under src/; it is the
segment's midpoint, (a + b) / 2 componentwise (for a zero-length segment this
is the coincident endpoints, as the spec states). -/
def MidPoint (s : Segment3D) : Point3D :=
  ⟨(s.a.x + s.b.x) / 2, (s.a.y + s.b.y) / 2, (s.a.z + s.b.z) / 2⟩

/-- The point 2.0 * p - q (the reflection of q across p), used for the virtual
chain neighbors in SubdivideSegments (noise.cpp lines 210 and 215). -/
def reflect3 (p q : Point3D) : Point3D :=
  ⟨2 * p.x - q.x, 2 * p.y - q.y, 2 * p.z - q.z⟩

/-- Drop the elevation of a Point3D (ProjectionZ of math3d.h on points). -/
def projZ3 (p : Point3D) : Point2D := ⟨p.x, p.y⟩

/-- Drop the elevations of a Segment3D (ProjectionZ of math3d.h on segments). -/
def projZseg (s : Segment3D) : Segment2D := ⟨projZ3 s.a, projZ3 s.b⟩

/-- Default-constructed Segment3D, modelled as the origin pair; in the source
it is only read after being overwritten (chain neighbors are read only when
their count is exactly one; the nearest-segment accumulators are overwritten
by the first candidate closer than DBL_MAX). -/
def defaultSeg : Segment3D := ⟨⟨0, 0, 0⟩, ⟨0, 0, 0⟩⟩

/-- The 25 segments as a list in index order. -/
def seg25List (segs : Fin 25 → Segment3D) : List Segment3D :=
  (List.finRange 25).map segs

/-- One step of the chain-neighbor scan of SubdivideSegments (noise.cpp lines
184-200): zero-length segments are skipped; a segment ending in currSegment.a
bumps the first counter, otherwise one starting in currSegment.b bumps the
second; each counter carries the last matching segment. -/
def chainStep (cur : Segment3D) (acc : (ℕ × Segment3D) × (ℕ × Segment3D))
    (s : Segment3D) : (ℕ × Segment3D) × (ℕ × Segment3D) :=
  if s.a ≠ s.b then
    if s.b = cur.a then ((acc.1.1 + 1, s), acc.2)
    else if s.a = cur.b then (acc.1, (acc.2.1 + 1, s))
    else acc
  else acc

/-- The full chain-neighbor scan over the 25 segments for one current
segment: ((numberSegmentEndingInA, lastEndingInA),
(numberStartingInB, lastStartingInB)). -/
def chainScan (segs : Fin 25 → Segment3D) (cur : Segment3D) :
    (ℕ × Segment3D) × (ℕ × Segment3D) :=
  (seg25List segs).foldl (chainStep cur) ((0, defaultSeg), (0, defaultSeg))

/-- The midpoint SubdivideSegments inserts into segment i (noise.cpp lines
202-217): the plain midpoint by default, replaced by a Catmull-Rom midpoint
when chain neighbors (real or reflected-virtual) are available. -/
def subdivideMid (segs : Fin 25 → Segment3D) (i : Fin 25) : Point3D :=
  let cur := segs i
  let c := chainScan segs cur
  if c.1.1 = 1 ∧ c.2.1 = 1 then
    SubdivideCatmullRomSpline c.1.2.a cur.a cur.b c.2.2.b
  else if c.1.1 ≠ 1 ∧ c.2.1 = 1 then
    SubdivideCatmullRomSpline (reflect3 cur.a cur.b) cur.a cur.b c.2.2.b
  else if c.1.1 = 1 ∧ c.2.1 ≠ 1 then
    SubdivideCatmullRomSpline c.1.2.a cur.a cur.b (reflect3 cur.b cur.a)
  else
    MidPoint cur

/-- The begin-halves output of Noise::SubdivideSegments (noise.cpp line 219):
segmentsBegin[i] = (segments[i].a, midPoint). -/
def SubdivideSegmentsBegin (segs : Fin 25 → Segment3D) : Fin 25 → Segment3D :=
  fun i => ⟨(segs i).a, subdivideMid segs i⟩

/-- The end-halves output of Noise::SubdivideSegments (noise.cpp line 221):
segmentsEnd[i] = (midPoint, segments[i].b). -/
def SubdivideSegmentsEnd (segs : Fin 25 → Segment3D) : Fin 25 → Segment3D :=
  fun i => ⟨subdivideMid segs i, (segs i).b⟩

/-- The midpoint grid output of Noise::SubdivideSegments (noise.cpp line 220):
midPoints[i / 5][i % 5] = ProjectionZ(midPoint of segment i). -/
def SubdivideSegmentsMids (segs : Fin 25 → Segment3D) : Fin 5 → Fin 5 → Point2D :=
  fun r c => projZ3 (subdivideMid segs ⟨5 * r.val + c.val, by omega⟩)

/-- Dot product of the two planar displacement vectors (p - o) and (q - o). -/
def dotFrom (o p q : Point2D) : ℚ :=
  (p.x - o.x) * (q.x - o.x) + (p.y - o.y) * (q.y - o.y)

/-- Squared planar distance between two points. -/
def sqDist2 (p q : Point2D) : ℚ :=
  (p.x - q.x) * (p.x - q.x) + (p.y - q.y) * (p.y - q.y)

/-- Modelled from the spec: clamp of utils.h is not under src/; it restricts a
value to [lo, hi]. -/
def clamp (v lo hi : ℚ) : ℚ := max lo (min v hi)

/-- Modelled from the spec: pointLineProjection of math2d.h is not under src/;
the spec calls it the normalized projection parameter u along the segment
(0 = start, 1 = end), i.e. dot(p - a, b - a) / |b - a|^2 (0 on a zero-length
segment, by the division-by-zero convention of ℚ). -/
def pointLineProjection (p : Point2D) (s : Segment2D) : ℚ :=
  dotFrom s.a p s.b / sqDist2 s.a s.b

/-- Modelled from the spec: distToLineSegment of math2d.h is not under src/;
it is the planar point-to-segment distance, the square root of the squared
distance to the clamped projection of p onto the segment. -/
def distToLineSegment (F : Fixture) (p : Point2D) (s : Segment2D) : ℚ :=
  let t := clamp (pointLineProjection p s) 0 1
  F.root (sqDist2 p ⟨s.a.x + t * (s.b.x - s.a.x), s.a.y + t * (s.b.y - s.a.y)⟩)

/-- Modelled from the spec: length of math2d.h on a Segment2D is not under
src/; it is the planar length, the square root of the squared length. -/
def segLength (F : Fixture) (s : Segment2D) : ℚ :=
  F.root (sqDist2 s.a s.b)

/-- Modelled from the spec: dist of math2d.h is not under src/; it is the
planar distance between two points. -/
def dist (F : Fixture) (p q : Point2D) : ℚ :=
  F.root (sqDist2 p q)

/-- Modelled from the spec: lerp of math3d.h on a Segment3D is not under
src/; the spec says the connection point is interpolated linearly in both
planar position and elevation: a + u * (b - a) componentwise. -/
def lerp (s : Segment3D) (u : ℚ) : Point3D :=
  ⟨s.a.x + u * (s.b.x - s.a.x), s.a.y + u * (s.b.y - s.a.y),
   s.a.z + u * (s.b.z - s.a.z)⟩

/-- Modelled from the spec: lerp_clamp of utils.h is not under src/; it is
linear interpolation with the parameter clamped to [0, 1]. -/
def lerpClamp (a b u : ℚ) : ℚ :=
  a + clamp u 0 1 * (b - a)

/-- Squared planar length of a Segment3D; it is the exact denominator of
pointLineProjection on its planar projection, so it is zero exactly when that
projection divides by zero. -/
def planarLengthSq (s : Segment3D) : ℚ :=
  sqDist2 (projZ3 s.a) (projZ3 s.b)

/-- One step of a nearest-segment search (noise.cpp lines 237-258, 447-481):
keep the candidate exactly when its distance is strictly smaller. -/
def nearestStep (F : Fixture) (p : Point2D) (acc : ℚ × Segment3D)
    (s : Segment3D) : ℚ × Segment3D :=
  let d := distToLineSegment F p (projZseg s)
  if d < acc.1 then (d, s) else acc

/-- The candidate list of GenerateSubSegments' nearest-segment search: all 25
begin-halves in index order, then all 25 end-halves. -/
def segHalvesList (sB sE : Fin 25 → Segment3D) : List Segment3D :=
  seg25List sB ++ seg25List sE

/-- The nearest-half-segment search of GenerateSubSegments (noise.cpp lines
233-258): fold over begin-halves then end-halves starting from DBL_MAX and a
default-constructed segment. -/
def nearestHalf (F : Fixture) (p : Point2D) (sB sE : Fin 25 → Segment3D) :
    ℚ × Segment3D :=
  (segHalvesList sB sE).foldl (nearestStep F p) (dblMax, defaultSeg)

/-- Row index (into the 5x5 refined window) of the refined point owning
sub-segment slot t (noise.cpp line 290 writes slot 3*(i-1) + (j-1)). -/
def subRow (t : Fin 9) : Fin 5 := ⟨t.val / 3 + 1, by omega⟩

/-- Column index (into the 5x5 refined window) of the refined point owning
sub-segment slot t. -/
def subCol (t : Fin 9) : Fin 5 := ⟨t.val % 3 + 1, by omega⟩

/-- The connection parameter of GenerateSubSegments (noise.cpp lines 260-284):
the projection onto the nearest half-segment clamped to [0, 1]; when strictly
inside the segment it is advanced by nearestDist / segmentLength, capped at 1. -/
def subConnectU (F : Fixture) (p : Point2D) (sB sE : Fin 25 → Segment3D) : ℚ :=
  let n := nearestHalf F p sB sE
  let u := clamp (pointLineProjection p (projZseg n.2)) 0 1
  if 0 < u ∧ u < 1 then
    let v := u + n.1 / segLength F (projZseg n.2)
    if 1 < v then 1 else v
  else u

/-- Embeds Noise::GenerateSubSegments (noise.cpp lines 225-295): each interior
refined point is joined to the point interpolated at the connection parameter
on its nearest half-segment; the new start borrows the end's elevation. -/
def GenerateSubSegments (F : Fixture) (points5 : Fin 5 → Fin 5 → Point2D)
    (sB sE : Fin 25 → Segment3D) : Fin 9 → Segment3D :=
  fun t =>
    let p := points5 (subRow t) (subCol t)
    let n := nearestHalf F p sB sE
    let sEnd := lerp n.2 (subConnectU F p sB sE)
    ⟨⟨p.x, p.y, sEnd.z⟩, sEnd⟩

/-- Embeds Noise::GetSubQuadrant (noise.cpp lines 492-522): the quadrant
address of (x, y) relative to cell origin (cx, cy) is floor(2 * (x - cx)) per
axis. -/
def GetSubQuadrant (cx cy px py : ℚ) : ℤ × ℤ :=
  (⌊2 * (px - cx)⌋, ⌊2 * (py - cy)⌋)

/-- The 49 positions of the 7x7 window in source iteration order (i outer,
j inner), as iterated by the replacement loop of GenerateNeighboringSubPoints
(noise.cpp lines 546-561). -/
def idx77 : List (Fin 7 × Fin 7) :=
  (List.finRange 7).product (List.finRange 7)

/-- The buffer position (row, column) that the replacement loop of
GenerateNeighboringSubPoints writes a level-1 point to (noise.cpp lines
550-554): k = 5/2 - quadrantY + qY, l = 5/2 - quadrantX + qX where (qX, qY)
is the point's own quadrant address. -/
def subTarget (cx cy : ℚ) (qX qY : ℤ) (p : Point2D) : ℤ × ℤ :=
  let q := GetSubQuadrant cx cy p.x p.y
  (2 - qY + q.2, 2 - qX + q.1)

/-- One step of the replacement loop (noise.cpp lines 546-561): the level-1
point at (i, j) overwrites the buffer position its quadrant address maps to;
the source guards the write with a bounds check, which is modelled here by the
fact that no Fin 5 position matches an out-of-range target. -/
def subReplaceStep (cx cy : ℚ) (qX qY : ℤ) (points : Fin 7 → Fin 7 → Point2D)
    (acc : Fin 5 → Fin 5 → Point2D) (ij : Fin 7 × Fin 7) :
    Fin 5 → Fin 5 → Point2D :=
  fun k l =>
    if ((k : ℤ), (l : ℤ)) = subTarget cx cy qX qY (points ij.1 ij.2) then
      points ij.1 ij.2
    else acc k l

/-- The fresh level-2 5x5 neighborhood of GenerateNeighboringSubPoints before
replacement (noise.cpp lines 533-543): jittered points generated at doubled
resolution around level-2 cell (2*cx + qX, 2*cy + qY), coordinates halved. -/
def freshSubPoints (F : Fixture) (e : Noise) (cx cy qX qY : ℤ) :
    Fin 5 → Fin 5 → Point2D :=
  fun i j =>
    let p := GenerateNeighboringPoints5 F e (2 * cx + qX) (2 * cy + qY) i j
    ⟨p.x / 2, p.y / 2⟩

/-- Embeds Noise::GenerateNeighboringSubPoints (noise.cpp lines 524-564):
generate the fresh halved 5x5 neighborhood for the query's quadrant, then
overwrite every position whose quadrant address coincides with a level-1 point
by that exact point. -/
def GenerateNeighboringSubPoints (F : Fixture) (e : Noise) (cx cy : ℤ)
    (x y : ℚ) (points : Fin 7 → Fin 7 → Point2D) : Fin 5 → Fin 5 → Point2D :=
  let q := GetSubQuadrant (cx : ℚ) (cy : ℚ) x y
  idx77.foldl (subReplaceStep (cx : ℚ) (cy : ℚ) q.1 q.2 points)
    (freshSubPoints F e cx cy q.1 q.2)

/-- The nearest-segment search of ComputeColorWorley (noise.cpp lines 442-481):
begin-halves, then end-halves, then the nine sub-segments, strict comparison,
accumulator starting at DBL_MAX with a default-constructed segment. -/
def worleyNearest (F : Fixture) (x y : ℚ) (sB sE : Fin 25 → Segment3D)
    (subs : Fin 9 → Segment3D) : ℚ × Segment3D :=
  (segHalvesList sB sE ++ (List.finRange 9).map subs).foldl
    (nearestStep F ⟨x, y⟩) (dblMax, defaultSeg)

/-- Embeds Noise::ComputeColorWorley (noise.cpp lines 440-490): distance to
the nearest segment plus the clamped interpolation of its endpoint elevations
at the query's projection parameter. -/
def ComputeColorWorley (F : Fixture) (x y : ℚ) (sB sE : Fin 25 → Segment3D)
    (subs : Fin 9 → Segment3D) : ℚ :=
  let n := worleyNearest F x y sB sE subs
  let u := pointLineProjection ⟨x, y⟩ (projZseg n.2)
  n.1 + lerpClamp n.2.a.z n.2.b.z u

/-- Embeds Noise::ComputeColorPoint (noise.cpp lines 297-307): 1 within the
disk of the given radius, 0 outside. -/
def ComputeColorPoint (F : Fixture) (x y : ℚ) (p : Point2D) (radius : ℚ) : ℚ :=
  if dist F ⟨x, y⟩ p < radius then 1 else 0

/-- Embeds Noise::ComputeColorPoints5 (noise.cpp lines 309-323). -/
def ComputeColorPoints5 (F : Fixture) (x y : ℚ) (pts : Fin 5 → Fin 5 → Point2D)
    (radius : ℚ) : ℚ :=
  ((List.finRange 5).product (List.finRange 5)).foldl
    (fun v ij => max v (ComputeColorPoint F x y (pts ij.1 ij.2) radius)) 0

/-- Embeds Noise::ComputeColorPoints7 (noise.cpp lines 325-339). -/
def ComputeColorPoints7 (F : Fixture) (x y : ℚ) (pts : Fin 7 → Fin 7 → Point2D)
    (radius : ℚ) : ℚ :=
  ((List.finRange 7).product (List.finRange 7)).foldl
    (fun v ij => max v (ComputeColorPoint F x y (pts ij.1 ij.2) radius)) 0

/-- Embeds Noise::ComputeColorSegment9 (noise.cpp lines 341-358). -/
def ComputeColorSegment9 (F : Fixture) (x y : ℚ) (segs : Fin 9 → Segment3D)
    (radius : ℚ) : ℚ :=
  ((List.finRange 9).map segs).foldl
    (fun v s => if distToLineSegment F ⟨x, y⟩ (projZseg s) < radius then 1 else v) 0

/-- Embeds Noise::ComputeColorSegment25 (noise.cpp lines 360-377). -/
def ComputeColorSegment25 (F : Fixture) (x y : ℚ) (segs : Fin 25 → Segment3D)
    (radius : ℚ) : ℚ :=
  (seg25List segs).foldl
    (fun v s => if distToLineSegment F ⟨x, y⟩ (projZseg s) < radius then 1 else v) 0

/-- Embeds Noise::ComputeColorGrid (noise.cpp lines 379-390). -/
def ComputeColorGrid (x y deltaX deltaY radius : ℚ) : ℚ :=
  if |x - (⌊x⌋ : ℚ) - deltaX| < radius ∨ |y - (⌊y⌋ : ℚ) - deltaY| < radius then 1
  else 0

/-- Embeds Noise::ComputeColor (noise.cpp lines 392-415): the level-1 debug
overlays, folded with max in source order. -/
def ComputeColor (F : Fixture) (e : Noise) (x y : ℚ)
    (points : Fin 7 → Fin 7 → Point2D) (midPoints : Fin 5 → Fin 5 → Point2D)
    (sB sE : Fin 25 → Segment3D) : ℚ :=
  let v0 : ℚ := 0
  let v1 :=
    if e.config.displayPoints then
      max (max v0 (ComputeColorPoints7 F x y points (1 / 16)))
        (ComputeColorPoints5 F x y midPoints (1 / 32))
    else v0
  let v2 :=
    if e.config.displaySegments then
      max (max v1 (ComputeColorSegment25 F x y sB (1 / 64)))
        (ComputeColorSegment25 F x y sE (1 / 64))
    else v1
  if e.config.displayGrid then max v2 (ComputeColorGrid x y 0 0 (1 / 128))
  else v2

/-- Embeds Noise::ComputeColorSub (noise.cpp lines 417-438): the level-2 debug
overlays at smaller radii, grid shifted by (0.5, 0.5). -/
def ComputeColorSub (F : Fixture) (e : Noise) (x y : ℚ)
    (pts : Fin 5 → Fin 5 → Point2D) (subs : Fin 9 → Segment3D) : ℚ :=
  let v0 : ℚ := 0
  let v1 :=
    if e.config.displayPoints then
      max v0 (ComputeColorPoints5 F x y pts (1 / 32))
    else v0
  let v2 :=
    if e.config.displaySegments then
      max v1 (ComputeColorSegment9 F x y subs (1 / 128))
    else v1
  if e.config.displayGrid then
    max v2 (ComputeColorGrid x y (1 / 2) (1 / 2) (1 / 256))
  else v2

/-- Embeds Noise::evaluate (noise.cpp lines 566-597): locate the enclosing
cell, build the 7x7 points, the 25 segments, their subdivision, the refined
5x5 points and the 9 sub-segments, and return the maximum of the Worley field
and the two overlay values. -/
def evaluate (F : Fixture) (e : Noise) (x y : ℚ) : ℚ :=
  let cx : ℤ := ⌊x⌋
  let cy : ℤ := ⌊y⌋
  let points := GenerateNeighboringPoints7 F e cx cy
  let segments := GenerateSegments F e.config points
  let sB := SubdivideSegmentsBegin segments
  let sE := SubdivideSegmentsEnd segments
  let mids := SubdivideSegmentsMids segments
  let subPoints := GenerateNeighboringSubPoints F e cx cy x y points
  let subSegments := GenerateSubSegments F subPoints sB sE
  max (ComputeColorWorley F x y sB sE subSegments)
    (max (ComputeColor F e x y points mids sB sE)
      (ComputeColorSub F e x y subPoints subSegments))

/-- Claim-side definition, following the spec's words (section 7): eps lies
strictly in (0, 0.5) and both rectangles have well-ordered corners with
non-zero extent on each axis. -/
def validConfig (cfg : NoiseConfig) : Prop :=
  0 < cfg.eps ∧ cfg.eps < 1 / 2 ∧
  cfg.noiseTopLeft.x < cfg.noiseBottomRight.x ∧
  cfg.noiseTopLeft.y < cfg.noiseBottomRight.y ∧
  cfg.perlinTopLeft.x < cfg.perlinBottomRight.x ∧
  cfg.perlinTopLeft.y < cfg.perlinBottomRight.y

instance (cfg : NoiseConfig) : Decidable (validConfig cfg) := by
  unfold validConfig
  infer_instance

/-- A trivial fixture used to run the engine on concrete inputs: constant
control function, constant draws at the cell midpoint, identity square-root
stand-in, empty cache window. -/
def trivFixture : Fixture :=
  ⟨fun _ _ => 0, fun _ => (1 / 2, 1 / 2), fun v => v, 0, 0⟩

/-- A valid concrete configuration (unit rectangles, seed 0, eps = 1/4). -/
def epsConfig : NoiseConfig :=
  ⟨⟨0, 0⟩, ⟨1, 1⟩, ⟨0, 0⟩, ⟨1, 1⟩, 0, 1 / 4, false, false, false⟩

/-- An invalid concrete configuration: eps = 2 lies outside (0, 0.5) and the
noise rectangle is degenerate (both corners equal). -/
def badConfig : NoiseConfig :=
  ⟨⟨0, 0⟩, ⟨0, 0⟩, ⟨0, 0⟩, ⟨1, 1⟩, 0, 2, false, false, false⟩

/-- Concrete input to SubdivideSegments: segment 0 is non-degenerate and ends
at Q = (1,0,0); segment 1 is zero-length at Q; all remaining segments are
zero-length at pairwise distinct points far away.  Exactly one non-degenerate
segment then ends at segment 1's point, so the source takes its third branch
and evaluates the spline for the zero-length segment 1. -/
def zeroLenSegs : Fin 25 → Segment3D := fun i =>
  if i = 0 then ⟨⟨0, 0, 0⟩, ⟨1, 0, 0⟩⟩
  else if i = 1 then ⟨⟨1, 0, 0⟩, ⟨1, 0, 0⟩⟩
  else ⟨⟨((i : ℕ) : ℚ) + 9, 9, 9⟩, ⟨((i : ℕ) : ℚ) + 9, 9, 9⟩⟩

/-- A constant 7x7 point grid used as concrete input to GenerateSegments. -/
def constPoints : Fin 7 → Fin 7 → Point2D := fun _ _ => ⟨0, 0⟩

/-- Concrete half-segment sets in which every half-segment is the same
non-degenerate horizontal segment from (0,0,0) to (4,0,0). -/
def flatSegs : Fin 25 → Segment3D := fun _ => ⟨⟨0, 0, 0⟩, ⟨4, 0, 0⟩⟩

/-- Concrete input to SubdivideSegments in which every segment is zero-length
at pairwise distinct points, so no chain neighbors exist anywhere. -/
def allZeroSegs : Fin 25 → Segment3D := fun i =>
  ⟨⟨((i : ℕ) : ℚ), 0, 0⟩, ⟨((i : ℕ) : ℚ), 0, 0⟩⟩

/-- Control function for the Worley degeneracy scenario: with the identity
remap and midpoint draws, the elevation of cell (0,0) is 1/10, of its eight
neighbors 1/2, and of every farther cell 0.  Cell (0,0) is then its own
steepest-descent minimum (a zero-length segment), while each of its neighbors
descends to the outer ring, so no segment ends at cell (0,0)'s point. -/
def cexPerlin : ℚ → ℚ → ℚ := fun p q =>
  if p = 1 / 2 ∧ q = 1 / 2 then -4 / 5
  else if |p - 1 / 2| ≤ 1 ∧ |q - 1 / 2| ≤ 1 then 0
  else -1

/-- Fixture for the Worley degeneracy scenario: cexPerlin control function,
midpoint draws (within [eps, 1-eps] for eps = 1/4), identity square-root
stand-in (the nearest-segment searches compare squared distances, which picks
the same argmin as any strictly monotone square root would), empty cache. -/
def cexFixture : Fixture :=
  ⟨cexPerlin, fun _ => (1 / 2, 1 / 2), fun v => v, 0, 0⟩

/-- Valid configuration for the Worley degeneracy scenario: identity remap
(both rectangles are the unit square), seed 0, eps = 1/4. -/
def cexConfig : NoiseConfig :=
  ⟨⟨0, 0⟩, ⟨1, 1⟩, ⟨0, 0⟩, ⟨1, 1⟩, 0, 1 / 4, false, false, false⟩

/-- The engine of the Worley degeneracy scenario. -/
def cexEngine : Noise := mkNoise cexFixture cexConfig

/-- The 7x7 level-1 points around cell (0,0) in the Worley degeneracy
scenario (as built by evaluate at the query (1/2, 1/2)). -/
def cexPoints : Fin 7 → Fin 7 → Point2D :=
  GenerateNeighboringPoints7 cexFixture cexEngine 0 0

/-- The 25 level-1 segments of the Worley degeneracy scenario. -/
def cexSegments : Fin 25 → Segment3D :=
  GenerateSegments cexFixture cexConfig cexPoints

/-- Their begin-halves. -/
def cexSB : Fin 25 → Segment3D := SubdivideSegmentsBegin cexSegments

/-- Their end-halves. -/
def cexSE : Fin 25 → Segment3D := SubdivideSegmentsEnd cexSegments

/-- The refined 5x5 points of the Worley degeneracy scenario at the query
(1/2, 1/2). -/
def cexSubPoints : Fin 5 → Fin 5 → Point2D :=
  GenerateNeighboringSubPoints cexFixture cexEngine 0 0 (1 / 2) (1 / 2) cexPoints

/-- The nine sub-segments of the Worley degeneracy scenario. -/
def cexSubSegments : Fin 9 → Segment3D :=
  GenerateSubSegments cexFixture cexSubPoints cexSB cexSE

/-- Looking up the cache written by InitPointCache at the buffer index that
GeneratePointCached computes recovers the directly generated point. -/
theorem pointCached_eq (F : Fixture) (cfg : NoiseConfig) (x y : ℤ) :
    GeneratePointCached F (mkNoise F cfg) x y = GeneratePoint F cfg x y := by
  unfold GeneratePointCached mkNoise
  dsimp only
  split
  · simp
  · rfl

/-- C4: for every integer cell, GeneratePointCached on an engine built by the
constructor returns exactly the point GeneratePoint returns — the cached path
reads back the value InitPointCache stored for the cell, the uncached path
generates directly, and cells at the window boundary fall on whichever side
the guard puts them with the same result. -/
theorem claim_C4_cache_transparency (F : Fixture) (cfg : NoiseConfig) (x y : ℤ) :
    GeneratePointCached F (mkNoise F cfg) x y = GeneratePoint F cfg x y :=
  pointCached_eq F cfg x y

/-- C2 counterexample: a configuration with eps = 2 (outside (0, 0.5)) and a
degenerate noise rectangle is not valid in the spec's sense, yet the
constructor happily builds an engine and stores that configuration unchanged —
no validation or failure happens. -/
theorem claim_C2_cex :
    ¬ validConfig badConfig ∧ (mkNoise trivFixture badConfig).config = badConfig :=
  ⟨by with_unfolding_all decide, rfl⟩

/-- C2 amended: construction performs no validation at all; for every
configuration, valid or not, the constructor returns an engine holding that
configuration unchanged (and a cache built from it), rather than failing
fast on bad eps or degenerate rectangles. -/
theorem claim_C2_no_validation (F : Fixture) (cfg : NoiseConfig) :
    (mkNoise F cfg).config = cfg := rfl

/-- C9: evaluate is a pure function of the engine configuration and the query
coordinates: any two engines built from the same configuration give the same
value at every query point, on every call. -/
theorem claim_C9_determinism (F : Fixture) (cfg : NoiseConfig) (x y : ℚ)
    (e1 e2 : Noise) (h1 : e1 = mkNoise F cfg) (h2 : e2 = mkNoise F cfg) :
    evaluate F e1 x y = evaluate F e2 x y := by
  rw [h1, h2]

/-- C9 witness: two separately constructed engines over the concrete trivial
fixture and configuration agree at the query (0, 0). -/
theorem claim_C9_witness :
    evaluate trivFixture (mkNoise trivFixture epsConfig) 0 0 =
      evaluate trivFixture (mkNoise trivFixture epsConfig) 0 0 :=
  claim_C9_determinism trivFixture epsConfig 0 0 _ _ rfl rfl

/-- C5: every generated point for cell (i, j) lies in
[i + eps, i + 1 - eps] x [j + eps, j + 1 - eps], hence strictly inside the
unit cell, under the spec's contract that the two drawn variates lie in
[eps, 1 - eps] and that eps lies in (0, 1/2). -/
theorem claim_C5_jitter (F : Fixture) (cfg : NoiseConfig) (i j : ℤ)
    (hdraw : ∀ s, cfg.eps ≤ (F.draw s).1 ∧ (F.draw s).1 ≤ 1 - cfg.eps ∧
      cfg.eps ≤ (F.draw s).2 ∧ (F.draw s).2 ≤ 1 - cfg.eps)
    (heps0 : 0 < cfg.eps) (heps1 : cfg.eps < 1 / 2) :
    ((i : ℚ) + cfg.eps ≤ (GeneratePoint F cfg i j).x ∧
     (GeneratePoint F cfg i j).x ≤ (i : ℚ) + 1 - cfg.eps ∧
     (j : ℚ) + cfg.eps ≤ (GeneratePoint F cfg i j).y ∧
     (GeneratePoint F cfg i j).y ≤ (j : ℚ) + 1 - cfg.eps) ∧
    ((i : ℚ) < (GeneratePoint F cfg i j).x ∧ (GeneratePoint F cfg i j).x < (i : ℚ) + 1 ∧
     (j : ℚ) < (GeneratePoint F cfg i j).y ∧ (GeneratePoint F cfg i j).y < (j : ℚ) + 1) := by
  obtain ⟨h1, h2, h3, h4⟩ := hdraw (GenerateSeedNoise cfg.seed i j)
  unfold GeneratePoint
  dsimp only
  exact ⟨⟨by linarith, by linarith, by linarith, by linarith⟩,
    by linarith, by linarith, by linarith, by linarith⟩

/-- C5 witness: at the concrete trivial fixture and eps = 1/4, the generated
point of cell (0, 0) respects the lower jitter bound. -/
theorem claim_C5_witness :
    ((0 : ℤ) : ℚ) + epsConfig.eps ≤ (GeneratePoint trivFixture epsConfig 0 0).x :=
  (claim_C5_jitter trivFixture epsConfig 0 0
    (fun _ => by norm_num [trivFixture, epsConfig])
    (by norm_num [epsConfig]) (by norm_num [epsConfig])).1.1

/-- C8 counterexample: at cell (-1, 0) with seed 0 the source computes the C
truncated remainder -541, not the mathematical residue
(541*(-1) + 79*0 + 0) mod INT_MAX = 2147483106. -/
theorem claim_C8_cex :
    GenerateSeedNoise 0 (-1) 0 ≠ (541 * (-1) + 79 * 0 + 0) % intMax := by
  decide

/-- C8 amended: GenerateSeedNoise is the C truncated remainder of
541*i + 79*j + seed by INT_MAX, which agrees with the mathematical mod
whenever the linear combination is nonnegative; in particular it is 0 at the
origin with seed 0. -/
theorem claim_C8_mod (seed i j : ℤ) (h : 0 ≤ 541 * i + 79 * j + seed) :
    GenerateSeedNoise seed i j = (541 * i + 79 * j + seed) % intMax := by
  unfold GenerateSeedNoise
  exact Int.tmod_eq_emod h (by decide)

/-- C8 witness: with seed 0 the hash of cell (0, 0) is exactly 0. -/
theorem claim_C8_witness :
    (0 : ℤ) ≤ 541 * 0 + 79 * 0 + 0 ∧ GenerateSeedNoise 0 0 0 = 0 :=
  ⟨by decide, (claim_C8_mod 0 0 0 (by decide)).trans (by decide)⟩

/-- Capping a value at 1 by the source's comparison agrees with min. -/
theorem if_cap_eq_min (v : ℚ) : (if 1 < v then (1 : ℚ) else v) = min 1 v := by
  rcases le_or_lt v 1 with h | h
  · rw [if_neg (not_lt.2 h), min_eq_right h]
  · rw [if_pos h, min_eq_left h.le]

/-- C7: each interior refined point's sub-segment ends at the point
interpolated on its nearest half-segment at the connection parameter obtained
by clamping the projection to [0, 1] and then, exactly when the clamped value
lies strictly inside (0, 1), advancing it by nearestDistance / segmentLength
capped at 1 (written min 1 below); the sub-segment starts at the refined point
with the end's elevation. -/
theorem claim_C7_connection (F : Fixture) (points5 : Fin 5 → Fin 5 → Point2D)
    (sB sE : Fin 25 → Segment3D) (t : Fin 9) :
    GenerateSubSegments F points5 sB sE t =
      (let p := points5 (subRow t) (subCol t)
       let n := nearestHalf F p sB sE
       let u := clamp (pointLineProjection p (projZseg n.2)) 0 1
       let uf := if 0 < u ∧ u < 1 then min 1 (u + n.1 / segLength F (projZseg n.2))
                 else u
       ⟨⟨p.x, p.y, (lerp n.2 uf).z⟩, lerp n.2 uf⟩) := by
  unfold GenerateSubSegments subConnectU
  dsimp only
  rw [if_cap_eq_min]

/-- C1 counterexample: in zeroLenSegs, segment 1 is zero-length, yet exactly
one non-degenerate segment ends at its point, so SubdivideSegments evaluates
the Catmull-Rom spline (third branch, with a reflected virtual successor) and
the resulting midpoint (17/16, 0, 0) differs from the coincident endpoints
(1, 0, 0) — both emitted halves are therefore not zero-length. -/
theorem claim_C1_cex :
    (zeroLenSegs 1).a = (zeroLenSegs 1).b ∧
    subdivideMid zeroLenSegs 1 ≠ (zeroLenSegs 1).a ∧
    (SubdivideSegmentsBegin zeroLenSegs 1).a ≠ (SubdivideSegmentsBegin zeroLenSegs 1).b := by
  refine ⟨by with_unfolding_all decide, by with_unfolding_all decide,
    by with_unfolding_all decide⟩

/-- C1 amended: for a zero-length input segment, when additionally the number
of non-degenerate segments ending at its point is not exactly one and the
number starting at its point is not exactly one (so none of the three spline
branches fires), the midpoint is the plain segment midpoint, which equals the
coincident endpoints, and both emitted halves are zero-length at that point;
when one of those counts is exactly one, the source does evaluate a spline and
the midpoint can move off the point, as the counterexample shows. -/
theorem claim_C1_zero_length (segs : Fin 25 → Segment3D) (i : Fin 25)
    (hz : (segs i).a = (segs i).b)
    (hA : (chainScan segs (segs i)).1.1 ≠ 1)
    (hB : (chainScan segs (segs i)).2.1 ≠ 1) :
    subdivideMid segs i = (segs i).a ∧
    SubdivideSegmentsBegin segs i = ⟨(segs i).a, (segs i).a⟩ ∧
    SubdivideSegmentsEnd segs i = ⟨(segs i).a, (segs i).a⟩ := by
  have hmid : subdivideMid segs i = (segs i).a := by
    unfold subdivideMid
    dsimp only
    rw [if_neg fun h => hA h.1, if_neg fun h => hB h.2, if_neg fun h => hA h.1]
    unfold MidPoint
    rw [← hz]
    obtain ⟨ax, ay, az⟩ := (segs i).a
    simp only [Point3D.mk.injEq]
    refine ⟨by ring, by ring, by ring⟩
  refine ⟨hmid, ?_, ?_⟩
  · unfold SubdivideSegmentsBegin
    rw [hmid]
  · unfold SubdivideSegmentsEnd
    rw [hmid, ← hz]

/-- C1 witness: in allZeroSegs every segment is degenerate, so segment 0 has
no non-degenerate chain neighbors at all, and its subdivision midpoint is its
own (coincident) endpoint. -/
theorem claim_C1_witness :
    ((allZeroSegs 0).a = (allZeroSegs 0).b ∧
     (chainScan allZeroSegs (allZeroSegs 0)).1.1 ≠ 1 ∧
     (chainScan allZeroSegs (allZeroSegs 0)).2.1 ≠ 1) ∧
    subdivideMid allZeroSegs 0 = (allZeroSegs 0).a :=
  ⟨⟨by with_unfolding_all decide, by with_unfolding_all decide,
    by with_unfolding_all decide⟩,
   (claim_C1_zero_length allZeroSegs 0 (by with_unfolding_all decide)
     (by with_unfolding_all decide) (by with_unfolding_all decide)).1⟩

/-- A left fold of descentStep either keeps its accumulator (when nothing in
the list beats it strictly) or returns the first element of the list attaining
the minimum value: that element beats the accumulator, all strictly earlier
elements are strictly above it, and nothing in the list is below it. -/
theorem descent_foldl_spec :
    ∀ (L : List (ℚ × (Fin 7 × Fin 7))) (acc : ℚ × (Fin 7 × Fin 7)),
      (L.foldl descentStep acc = acc ∧ ∀ c ∈ L, acc.1 ≤ c.1) ∨
      (∃ n : ℕ, ∃ hn : n < L.length,
        L.foldl descentStep acc = L.get ⟨n, hn⟩ ∧ (L.get ⟨n, hn⟩).1 < acc.1 ∧
        (∀ m, ∀ hm : m < L.length, m < n →
          (L.get ⟨n, hn⟩).1 < (L.get ⟨m, hm⟩).1) ∧
        (∀ m, ∀ hm : m < L.length, (L.get ⟨n, hn⟩).1 ≤ (L.get ⟨m, hm⟩).1))
  | [], acc => Or.inl ⟨rfl, by simp⟩
  | c :: cs, acc => by
    rw [List.foldl_cons]
    by_cases h : c.1 < acc.1
    · have hstep : descentStep acc c = c := by
        unfold descentStep
        rw [if_pos h]
      rw [hstep]
      rcases descent_foldl_spec cs c with ⟨heq, hall⟩ | ⟨n, hn, heq, hlt, hfirst, hmin⟩
      · refine Or.inr ⟨0, by simp, heq, h, ?_, ?_⟩
        · intro m hm hm0
          omega
        · intro m hm
          match m with
          | 0 => exact le_refl _
          | m + 1 => exact hall _ (List.get_mem cs m _)
      · refine Or.inr ⟨n + 1, Nat.succ_lt_succ hn, heq, lt_trans hlt h, ?_, ?_⟩
        · intro m hm hmn
          match m with
          | 0 => exact hlt
          | m + 1 => exact hfirst m _ (by omega)
        · intro m hm
          match m with
          | 0 => exact le_of_lt hlt
          | m + 1 => exact hmin m _
    · have hstep : descentStep acc c = acc := by
        unfold descentStep
        rw [if_neg h]
      rw [hstep]
      rcases descent_foldl_spec cs acc with ⟨heq, hall⟩ | ⟨n, hn, heq, hlt, hfirst, hmin⟩
      · refine Or.inl ⟨heq, ?_⟩
        intro c' hc'
        rcases List.mem_cons.1 hc' with rfl | hmem
        · exact le_of_not_lt h
        · exact hall c' hmem
      · refine Or.inr ⟨n + 1, Nat.succ_lt_succ hn, heq, hlt, ?_, ?_⟩
        · intro m hm hmn
          match m with
          | 0 => exact lt_of_lt_of_le hlt (le_of_not_lt h)
          | m + 1 => exact hfirst m _ (by omega)
        · intro m hm
          match m with
          | 0 => exact le_of_lt (lt_of_lt_of_le hlt (le_of_not_lt h))
          | m + 1 => exact hmin m _

/-- The 3x3 scan list always has nine entries. -/
theorem candList_length (s : Fin 25) : (candList s).length = 9 := rfl

/-- When every elevation is below the DBL_MAX sentinel, the lowest-neighbor
fold returns the first scan position attaining the 3x3 minimum, paired with
that minimum elevation. -/
theorem lowestNeighbor_spec (e : Fin 7 → Fin 7 → ℚ) (s : Fin 25)
    (hb : ∀ i j, e i j < dblMax) :
    ∃ n : ℕ, ∃ hn : n < (candList s).length,
      lowestNeighbor e s =
        (e ((candList s).get ⟨n, hn⟩).1 ((candList s).get ⟨n, hn⟩).2,
         (candList s).get ⟨n, hn⟩) ∧
      (∀ m, ∀ hm : m < (candList s).length,
        e ((candList s).get ⟨n, hn⟩).1 ((candList s).get ⟨n, hn⟩).2 ≤
          e ((candList s).get ⟨m, hm⟩).1 ((candList s).get ⟨m, hm⟩).2) ∧
      (∀ m, ∀ hm : m < (candList s).length, m < n →
        e ((candList s).get ⟨n, hn⟩).1 ((candList s).get ⟨n, hn⟩).2 <
          e ((candList s).get ⟨m, hm⟩).1 ((candList s).get ⟨m, hm⟩).2) := by
  have hlen : ((candList s).map fun kl => (e kl.1 kl.2, kl)).length =
      (candList s).length := List.length_map _ _
  have h9 : 0 < (candList s).length := by
    rw [candList_length]
    omega
  rcases descent_foldl_spec ((candList s).map fun kl => (e kl.1 kl.2, kl))
      (dblMax, (cellRow s, cellCol s)) with ⟨heq, hall⟩ | ⟨n, hn, heq, hlt, hfirst, hmin⟩
  · exfalso
    have hmem := List.get_mem ((candList s).map fun kl => (e kl.1 kl.2, kl)) 0
      (hlen ▸ h9)
    have hle := hall _ hmem
    simp only [List.get_eq_getElem, List.getElem_map] at hle
    exact absurd hle (not_le.2 (hb _ _))
  · have hn' : n < (candList s).length := hlen ▸ hn
    refine ⟨n, hn', ?_, ?_, ?_⟩
    · have hgoal : lowestNeighbor e s =
          ((candList s).map fun kl => (e kl.1 kl.2, kl)).get ⟨n, hn⟩ := heq
      simp only [List.get_eq_getElem, List.getElem_map] at hgoal ⊢
      exact hgoal
    · intro m hm
      have h1 := hmin m (hlen ▸ hm)
      simp only [List.get_eq_getElem, List.getElem_map] at h1 ⊢
      exact h1
    · intro m hm hmn
      have h1 := hfirst m (hlen ▸ hm) hmn
      simp only [List.get_eq_getElem, List.getElem_map] at h1 ⊢
      exact h1

/-- C3: every emitted segment starts at its cell's own point with that cell's
elevation, and ends at the first point of its 3x3 scan list (row-major,
ascending, the cell itself included at scan position 4) attaining the
neighborhood minimum, carrying that minimum elevation: the end's elevation is
at most every elevation scanned, and every strictly earlier scan position has
a strictly larger elevation (ties broken by the earliest position); the
hypothesis only excludes elevations at or above DBL_MAX, which the sentinel
initialization of the source would misorder. -/
theorem claim_C3_steepest (F : Fixture) (cfg : NoiseConfig)
    (points : Fin 7 → Fin 7 → Point2D)
    (hb : ∀ i j : Fin 7, ComputeElevations F cfg points i j < dblMax)
    (s : Fin 25) :
    ∃ n : ℕ, ∃ hn : n < (candList s).length,
      GenerateSegments F cfg points s =
        ⟨⟨(points (cellRow s) (cellCol s)).x, (points (cellRow s) (cellCol s)).y,
          ComputeElevations F cfg points (cellRow s) (cellCol s)⟩,
         ⟨(points ((candList s).get ⟨n, hn⟩).1 ((candList s).get ⟨n, hn⟩).2).x,
          (points ((candList s).get ⟨n, hn⟩).1 ((candList s).get ⟨n, hn⟩).2).y,
          ComputeElevations F cfg points ((candList s).get ⟨n, hn⟩).1
            ((candList s).get ⟨n, hn⟩).2⟩⟩ ∧
      (∀ m, ∀ hm : m < (candList s).length,
        ComputeElevations F cfg points ((candList s).get ⟨n, hn⟩).1
            ((candList s).get ⟨n, hn⟩).2 ≤
          ComputeElevations F cfg points ((candList s).get ⟨m, hm⟩).1
            ((candList s).get ⟨m, hm⟩).2) ∧
      (∀ m, ∀ hm : m < (candList s).length, m < n →
        ComputeElevations F cfg points ((candList s).get ⟨n, hn⟩).1
            ((candList s).get ⟨n, hn⟩).2 <
          ComputeElevations F cfg points ((candList s).get ⟨m, hm⟩).1
            ((candList s).get ⟨m, hm⟩).2) := by
  obtain ⟨n, hn, hEq, hMin, hFirst⟩ :=
    lowestNeighbor_spec (ComputeElevations F cfg points) s hb
  refine ⟨n, hn, ?_, hMin, hFirst⟩
  unfold GenerateSegments
  dsimp only
  rw [hEq]

/-- C3 witness: on the constant point grid with the trivial fixture (all
elevations 1/2, far below DBL_MAX), segment slot 0 satisfies the steepest-
descent characterization. -/
theorem claim_C3_witness :
    (∀ i j : Fin 7, ComputeElevations trivFixture epsConfig constPoints i j < dblMax) ∧
    (∃ n : ℕ, ∃ hn : n < (candList 0).length,
      GenerateSegments trivFixture epsConfig constPoints 0 =
        ⟨⟨(constPoints (cellRow 0) (cellCol 0)).x, (constPoints (cellRow 0) (cellCol 0)).y,
          ComputeElevations trivFixture epsConfig constPoints (cellRow 0) (cellCol 0)⟩,
         ⟨(constPoints ((candList 0).get ⟨n, hn⟩).1 ((candList 0).get ⟨n, hn⟩).2).x,
          (constPoints ((candList 0).get ⟨n, hn⟩).1 ((candList 0).get ⟨n, hn⟩).2).y,
          ComputeElevations trivFixture epsConfig constPoints ((candList 0).get ⟨n, hn⟩).1
            ((candList 0).get ⟨n, hn⟩).2⟩⟩ ∧
      (∀ m, ∀ hm : m < (candList 0).length,
        ComputeElevations trivFixture epsConfig constPoints ((candList 0).get ⟨n, hn⟩).1
            ((candList 0).get ⟨n, hn⟩).2 ≤
          ComputeElevations trivFixture epsConfig constPoints ((candList 0).get ⟨m, hm⟩).1
            ((candList 0).get ⟨m, hm⟩).2) ∧
      (∀ m, ∀ hm : m < (candList 0).length, m < n →
        ComputeElevations trivFixture epsConfig constPoints ((candList 0).get ⟨n, hn⟩).1
            ((candList 0).get ⟨n, hn⟩).2 <
          ComputeElevations trivFixture epsConfig constPoints ((candList 0).get ⟨m, hm⟩).1
            ((candList 0).get ⟨m, hm⟩).2)) :=
  ⟨by with_unfolding_all decide,
   claim_C3_steepest trivFixture epsConfig constPoints (by with_unfolding_all decide) 0⟩

set_option maxRecDepth 40000 in
/-- C10 counterexample: in the Worley degeneracy scenario (valid eps = 1/4,
unit rectangles, midpoint draws, cexPerlin control function), cell (0,0) is
its own steepest-descent minimum (segment slot 12 is zero-length), no segment
ends at its point, and at the query (1/2, 1/2) the nearest-segment search of
ComputeColorWorley — run on exactly the half-segment and sub-segment sets that
evaluate builds at that query — returns a segment of zero planar length, so
the projection computed right after it divides by zero. -/
theorem claim_C10_cex :
    (cexSegments 12).a = (cexSegments 12).b ∧
    planarLengthSq ((worleyNearest cexFixture (1 / 2) (1 / 2) cexSB cexSE
      cexSubSegments).2) = 0 := by
  constructor
  · with_unfolding_all decide
  · with_unfolding_all decide

/-- C10 amended: in GenerateSubSegments the division that advances the
connection parameter is guarded by 0 < u < 1 on the clamped projection, and
that guard can only pass when the nearest half-segment has strictly positive
planar (squared) length — a zero-length nearest segment yields projection 0,
so the guarded division never divides by zero; the corresponding claim for
ComputeColorWorley is false, as the counterexample shows, because there the
projection is computed unconditionally on a possibly degenerate nearest
segment. -/
theorem claim_C10_guarded (F : Fixture) (p : Point2D) (sB sE : Fin 25 → Segment3D)
    (h0 : 0 < clamp (pointLineProjection p (projZseg (nearestHalf F p sB sE).2)) 0 1)
    (h1 : clamp (pointLineProjection p (projZseg (nearestHalf F p sB sE).2)) 0 1 < 1) :
    0 < planarLengthSq (nearestHalf F p sB sE).2 := by
  by_contra hc
  have hnn : 0 ≤ planarLengthSq (nearestHalf F p sB sE).2 := by
    unfold planarLengthSq sqDist2
    exact add_nonneg (mul_self_nonneg _) (mul_self_nonneg _)
  have hsq : planarLengthSq (nearestHalf F p sB sE).2 = 0 :=
    le_antisymm (not_lt.1 hc) hnn
  have hproj : pointLineProjection p (projZseg (nearestHalf F p sB sE).2) = 0 := by
    unfold pointLineProjection
    rw [show sqDist2 (projZseg (nearestHalf F p sB sE).2).a
        (projZseg (nearestHalf F p sB sE).2).b = 0 from hsq]
    exact div_zero _
  rw [hproj] at h0
  have hclamp : clamp 0 0 1 = (0 : ℚ) := by
    unfold clamp
    rw [min_eq_left (by norm_num : (0 : ℚ) ≤ 1), max_self]
  rw [hclamp] at h0
  exact lt_irrefl 0 h0

set_option maxRecDepth 40000 in
/-- C10 witness: with all fifty half-segments equal to the non-degenerate
segment (0,0,0)-(4,0,0) and the refined point (2,3), the clamped projection is
1/2, strictly inside (0,1), and the nearest segment indeed has positive
squared planar length (16). -/
theorem claim_C10_witness :
    (0 < clamp (pointLineProjection ⟨2, 3⟩
        (projZseg (nearestHalf cexFixture ⟨2, 3⟩ flatSegs flatSegs).2)) 0 1 ∧
     clamp (pointLineProjection ⟨2, 3⟩
        (projZseg (nearestHalf cexFixture ⟨2, 3⟩ flatSegs flatSegs).2)) 0 1 < 1) ∧
    0 < planarLengthSq (nearestHalf cexFixture ⟨2, 3⟩ flatSegs flatSegs).2 :=
  ⟨⟨by with_unfolding_all decide, by with_unfolding_all decide⟩,
   claim_C10_guarded cexFixture ⟨2, 3⟩ flatSegs flatSegs
     (by with_unfolding_all decide) (by with_unfolding_all decide)⟩

/-- Floor of an integer plus a fractional part in [0, 1). -/
theorem floor_int_add_frac (n : ℤ) (o : ℚ) (h0 : 0 ≤ o) (h1 : o < 1) :
    ⌊(n : ℚ) + o⌋ = n := by
  rw [Int.floor_int_add, Int.floor_eq_zero_iff.2 ⟨h0, h1⟩, add_zero]

/-- The quadrant address of the jittered point of cell (X, Y), relative to
origin (cx, cy), lies in the two-address band {2(X-cx), 2(X-cx)+1} on the x
axis and {2(Y-cy), 2(Y-cy)+1} on the y axis. -/
theorem addr_of_cell (F : Fixture) (cfg : NoiseConfig)
    (hdraw : ∀ s, cfg.eps ≤ (F.draw s).1 ∧ (F.draw s).1 ≤ 1 - cfg.eps ∧
      cfg.eps ≤ (F.draw s).2 ∧ (F.draw s).2 ≤ 1 - cfg.eps)
    (heps : 0 < cfg.eps) (cx cy X Y : ℤ) :
    (2 * (X - cx) ≤ ⌊2 * ((GeneratePoint F cfg X Y).x - (cx : ℚ))⌋ ∧
     ⌊2 * ((GeneratePoint F cfg X Y).x - (cx : ℚ))⌋ ≤ 2 * (X - cx) + 1) ∧
    (2 * (Y - cy) ≤ ⌊2 * ((GeneratePoint F cfg X Y).y - (cy : ℚ))⌋ ∧
     ⌊2 * ((GeneratePoint F cfg X Y).y - (cy : ℚ))⌋ ≤ 2 * (Y - cy) + 1) := by
  obtain ⟨h1, h2, h3, h4⟩ := hdraw (GenerateSeedNoise cfg.seed X Y)
  unfold GeneratePoint
  dsimp only
  have hx : 2 * (((X : ℚ) + (F.draw (GenerateSeedNoise cfg.seed X Y)).1) - (cx : ℚ)) =
      ((2 * (X - cx) : ℤ) : ℚ) + 2 * (F.draw (GenerateSeedNoise cfg.seed X Y)).1 := by
    push_cast
    ring
  have hy : 2 * (((Y : ℚ) + (F.draw (GenerateSeedNoise cfg.seed X Y)).2) - (cy : ℚ)) =
      ((2 * (Y - cy) : ℤ) : ℚ) + 2 * (F.draw (GenerateSeedNoise cfg.seed X Y)).2 := by
    push_cast
    ring
  rw [hx, hy, Int.floor_int_add, Int.floor_int_add]
  have hbx : 0 ≤ ⌊2 * (F.draw (GenerateSeedNoise cfg.seed X Y)).1⌋ ∧
      ⌊2 * (F.draw (GenerateSeedNoise cfg.seed X Y)).1⌋ ≤ 1 := by
    constructor
    · exact Int.le_floor.2 (by push_cast; linarith)
    · have := Int.floor_lt.2 (show 2 * (F.draw (GenerateSeedNoise cfg.seed X Y)).1 <
        ((2 : ℤ) : ℚ) by push_cast; linarith)
      omega
  have hby : 0 ≤ ⌊2 * (F.draw (GenerateSeedNoise cfg.seed X Y)).2⌋ ∧
      ⌊2 * (F.draw (GenerateSeedNoise cfg.seed X Y)).2⌋ ≤ 1 := by
    constructor
    · exact Int.le_floor.2 (by push_cast; linarith)
    · have := Int.floor_lt.2 (show 2 * (F.draw (GenerateSeedNoise cfg.seed X Y)).2 <
        ((2 : ℤ) : ℚ) by push_cast; linarith)
      omega
  omega

/-- The quadrant address of a fresh halved level-2 point: the level-2 point of
cell (X, Y) halved has address (X - 2*cx, Y - 2*cy) relative to (cx, cy). -/
theorem addr_of_half_cell (F : Fixture) (cfg : NoiseConfig)
    (hdraw : ∀ s, cfg.eps ≤ (F.draw s).1 ∧ (F.draw s).1 ≤ 1 - cfg.eps ∧
      cfg.eps ≤ (F.draw s).2 ∧ (F.draw s).2 ≤ 1 - cfg.eps)
    (heps : 0 < cfg.eps) (cx cy X Y : ℤ) :
    ⌊2 * ((GeneratePoint F cfg X Y).x / 2 - (cx : ℚ))⌋ = X - 2 * cx ∧
    ⌊2 * ((GeneratePoint F cfg X Y).y / 2 - (cy : ℚ))⌋ = Y - 2 * cy := by
  obtain ⟨h1, h2, h3, h4⟩ := hdraw (GenerateSeedNoise cfg.seed X Y)
  unfold GeneratePoint
  dsimp only
  have hx : 2 * ((((X : ℚ) + (F.draw (GenerateSeedNoise cfg.seed X Y)).1)) / 2 - (cx : ℚ)) =
      ((X - 2 * cx : ℤ) : ℚ) + (F.draw (GenerateSeedNoise cfg.seed X Y)).1 := by
    push_cast
    ring
  have hy : 2 * ((((Y : ℚ) + (F.draw (GenerateSeedNoise cfg.seed X Y)).2)) / 2 - (cy : ℚ)) =
      ((Y - 2 * cy : ℤ) : ℚ) + (F.draw (GenerateSeedNoise cfg.seed X Y)).2 := by
    push_cast
    ring
  rw [hx, hy]
  constructor
  · exact floor_int_add_frac _ _ (by linarith) (by linarith)
  · exact floor_int_add_frac _ _ (by linarith) (by linarith)

/-- If no element of the list targets position (k, l), the replacement fold
leaves that position of the accumulator unchanged. -/
theorem subfold_preserve (cx cy : ℚ) (qX qY : ℤ) (points : Fin 7 → Fin 7 → Point2D)
    (k l : Fin 5) :
    ∀ (L : List (Fin 7 × Fin 7)) (acc : Fin 5 → Fin 5 → Point2D),
      (∀ ij ∈ L, subTarget cx cy qX qY (points ij.1 ij.2) ≠ ((k : ℤ), (l : ℤ))) →
      L.foldl (subReplaceStep cx cy qX qY points) acc k l = acc k l
  | [], _, _ => rfl
  | c :: cs, acc, h => by
    rw [List.foldl_cons,
      subfold_preserve cx cy qX qY points k l cs _
        (fun ij hij => h ij (List.mem_cons_of_mem c hij))]
    unfold subReplaceStep
    rw [if_neg fun hEq => h c (List.mem_cons_self c cs) hEq.symm]

/-- If (exactly) one element of the list targets position (k, l), the
replacement fold stores that element's point there. -/
theorem subfold_hit (cx cy : ℚ) (qX qY : ℤ) (points : Fin 7 → Fin 7 → Point2D)
    (k l : Fin 5) :
    ∀ (L : List (Fin 7 × Fin 7)) (acc : Fin 5 → Fin 5 → Point2D)
      (ij0 : Fin 7 × Fin 7), ij0 ∈ L →
      subTarget cx cy qX qY (points ij0.1 ij0.2) = ((k : ℤ), (l : ℤ)) →
      (∀ ij ∈ L, subTarget cx cy qX qY (points ij.1 ij.2) = ((k : ℤ), (l : ℤ)) →
        ij = ij0) →
      L.foldl (subReplaceStep cx cy qX qY points) acc k l = points ij0.1 ij0.2
  | [], _, _, hmem, _, _ => absurd hmem (List.not_mem_nil _)
  | c :: cs, acc, ij0, hmem, htgt, huniq => by
    rw [List.foldl_cons]
    by_cases hc : ij0 ∈ cs
    · exact subfold_hit cx cy qX qY points k l cs _ ij0 hc htgt
        (fun ij hij h => huniq ij (List.mem_cons_of_mem c hij) h)
    · have hij0c : ij0 = c := by
        rcases List.mem_cons.1 hmem with h | h
        · exact h
        · exact absurd h hc
      rw [subfold_preserve cx cy qX qY points k l cs _
        (fun ij hij hEq =>
          hc ((huniq ij (List.mem_cons_of_mem c hij) hEq) ▸ hij))]
      unfold subReplaceStep
      rw [hij0c] at htgt
      rw [if_pos htgt.symm, hij0c]

/-- Every index pair appears in the iteration list of the replacement loop. -/
theorem mem_idx77 (p : Fin 7 × Fin 7) : p ∈ idx77 := by
  obtain ⟨a, b⟩ := p
  unfold idx77
  rw [show (List.finRange 7).product (List.finRange 7) =
    (List.finRange 7) ×ˢ (List.finRange 7) from rfl]
  exact List.mem_product.2 ⟨List.mem_finRange a, List.mem_finRange b⟩

/-- The 7x7 neighborhood points are the directly generated points of their
cells. -/
theorem points7_eq (F : Fixture) (cfg : NoiseConfig) (cx cy : ℤ) (a b : Fin 7) :
    GenerateNeighboringPoints7 F (mkNoise F cfg) cx cy a b =
      GeneratePoint F cfg (cx + (b : ℤ) - 3) (cy + (a : ℤ) - 3) := by
  unfold GenerateNeighboringPoints7
  rw [pointCached_eq]

/-- C6: after GenerateNeighboringSubPoints generates the fresh level-2 5x5
neighborhood at doubled resolution and halves its coordinates, every position
(k, l) of the result whose quadrant address (floor(2*(coordinate -
cellOrigin)) per axis, as computed by GetSubQuadrant) coincides with the
quadrant address of one of the 49 level-1 points holds exactly that level-1
point; the hypotheses are the spec's contract on the jitter draws and eps,
which confine every point to the interior of its cell. -/
theorem claim_C6_boundary (F : Fixture) (cfg : NoiseConfig) (cx cy : ℤ) (x y : ℚ)
    (k l : Fin 5) (i j : Fin 7)
    (hdraw : ∀ s, cfg.eps ≤ (F.draw s).1 ∧ (F.draw s).1 ≤ 1 - cfg.eps ∧
      cfg.eps ≤ (F.draw s).2 ∧ (F.draw s).2 ≤ 1 - cfg.eps)
    (heps : 0 < cfg.eps)
    (hmatch : GetSubQuadrant (cx : ℚ) (cy : ℚ)
        (freshSubPoints F (mkNoise F cfg) cx cy
          (GetSubQuadrant (cx : ℚ) (cy : ℚ) x y).1
          (GetSubQuadrant (cx : ℚ) (cy : ℚ) x y).2 k l).x
        (freshSubPoints F (mkNoise F cfg) cx cy
          (GetSubQuadrant (cx : ℚ) (cy : ℚ) x y).1
          (GetSubQuadrant (cx : ℚ) (cy : ℚ) x y).2 k l).y =
      GetSubQuadrant (cx : ℚ) (cy : ℚ)
        (GenerateNeighboringPoints7 F (mkNoise F cfg) cx cy i j).x
        (GenerateNeighboringPoints7 F (mkNoise F cfg) cx cy i j).y) :
    GenerateNeighboringSubPoints F (mkNoise F cfg) cx cy x y
      (GenerateNeighboringPoints7 F (mkNoise F cfg) cx cy) k l =
    GenerateNeighboringPoints7 F (mkNoise F cfg) cx cy i j := by
  have hfresh : freshSubPoints F (mkNoise F cfg) cx cy
      (GetSubQuadrant (cx : ℚ) (cy : ℚ) x y).1
      (GetSubQuadrant (cx : ℚ) (cy : ℚ) x y).2 k l =
      ⟨(GeneratePoint F cfg (2 * cx + (GetSubQuadrant (cx : ℚ) (cy : ℚ) x y).1 + (l : ℤ) - 2)
          (2 * cy + (GetSubQuadrant (cx : ℚ) (cy : ℚ) x y).2 + (k : ℤ) - 2)).x / 2,
       (GeneratePoint F cfg (2 * cx + (GetSubQuadrant (cx : ℚ) (cy : ℚ) x y).1 + (l : ℤ) - 2)
          (2 * cy + (GetSubQuadrant (cx : ℚ) (cy : ℚ) x y).2 + (k : ℤ) - 2)).y / 2⟩ := by
    unfold freshSubPoints GenerateNeighboringPoints5
    rw [pointCached_eq]
  have haddrF : GetSubQuadrant (cx : ℚ) (cy : ℚ)
      (freshSubPoints F (mkNoise F cfg) cx cy
        (GetSubQuadrant (cx : ℚ) (cy : ℚ) x y).1
        (GetSubQuadrant (cx : ℚ) (cy : ℚ) x y).2 k l).x
      (freshSubPoints F (mkNoise F cfg) cx cy
        (GetSubQuadrant (cx : ℚ) (cy : ℚ) x y).1
        (GetSubQuadrant (cx : ℚ) (cy : ℚ) x y).2 k l).y =
      ((GetSubQuadrant (cx : ℚ) (cy : ℚ) x y).1 + (l : ℤ) - 2,
       (GetSubQuadrant (cx : ℚ) (cy : ℚ) x y).2 + (k : ℤ) - 2) := by
    rw [hfresh]
    obtain ⟨hfx, hfy⟩ := addr_of_half_cell F cfg hdraw heps cx cy
      (2 * cx + (GetSubQuadrant (cx : ℚ) (cy : ℚ) x y).1 + (l : ℤ) - 2)
      (2 * cy + (GetSubQuadrant (cx : ℚ) (cy : ℚ) x y).2 + (k : ℤ) - 2)
    unfold GetSubQuadrant
    unfold GetSubQuadrant at hfx hfy
    dsimp only at hfx hfy ⊢
    rw [hfx, hfy]
    rw [Prod.mk.injEq]
    omega
  have haddrP : GetSubQuadrant (cx : ℚ) (cy : ℚ)
      (GenerateNeighboringPoints7 F (mkNoise F cfg) cx cy i j).x
      (GenerateNeighboringPoints7 F (mkNoise F cfg) cx cy i j).y =
      ((GetSubQuadrant (cx : ℚ) (cy : ℚ) x y).1 + (l : ℤ) - 2,
       (GetSubQuadrant (cx : ℚ) (cy : ℚ) x y).2 + (k : ℤ) - 2) := by
    rw [← hmatch, haddrF]
  have htgt : subTarget (cx : ℚ) (cy : ℚ) (GetSubQuadrant (cx : ℚ) (cy : ℚ) x y).1
      (GetSubQuadrant (cx : ℚ) (cy : ℚ) x y).2
      (GenerateNeighboringPoints7 F (mkNoise F cfg) cx cy i j) = ((k : ℤ), (l : ℤ)) := by
    unfold subTarget
    dsimp only
    rw [show (GetSubQuadrant (cx : ℚ) (cy : ℚ)
        (GenerateNeighboringPoints7 F (mkNoise F cfg) cx cy i j).x
        (GenerateNeighboringPoints7 F (mkNoise F cfg) cx cy i j).y) =
      ((GetSubQuadrant (cx : ℚ) (cy : ℚ) x y).1 + (l : ℤ) - 2,
       (GetSubQuadrant (cx : ℚ) (cy : ℚ) x y).2 + (k : ℤ) - 2) from haddrP]
    rw [Prod.mk.injEq]
    omega
  have huniq : ∀ ij : Fin 7 × Fin 7, ij ∈ idx77 →
      subTarget (cx : ℚ) (cy : ℚ) (GetSubQuadrant (cx : ℚ) (cy : ℚ) x y).1
        (GetSubQuadrant (cx : ℚ) (cy : ℚ) x y).2
        (GenerateNeighboringPoints7 F (mkNoise F cfg) cx cy ij.1 ij.2) =
        ((k : ℤ), (l : ℤ)) →
      ij = (i, j) := by
    intro ij _ htgt'
    obtain ⟨a, b⟩ := ij
    have hcell := addr_of_cell F cfg hdraw heps cx cy
      (cx + (b : ℤ) - 3) (cy + (a : ℤ) - 3)
    have hcell0 := addr_of_cell F cfg hdraw heps cx cy
      (cx + (j : ℤ) - 3) (cy + (i : ℤ) - 3)
    have htgt0 := htgt
    rw [points7_eq] at htgt'
    rw [points7_eq] at htgt0
    unfold subTarget GetSubQuadrant at htgt' htgt0
    dsimp only at htgt' htgt0
    rw [Prod.mk.injEq] at htgt' htgt0
    obtain ⟨ha1, ha2⟩ := htgt'
    obtain ⟨hb1, hb2⟩ := htgt0
    obtain ⟨⟨hx1, hx2⟩, hy1, hy2⟩ := hcell
    obtain ⟨⟨hx3, hx4⟩, hy3, hy4⟩ := hcell0
    have hab : a = i ∧ b = j := by
      constructor
      · have : (a : ℤ) = (i : ℤ) := by omega
        exact Fin.ext (by omega)
      · have : (b : ℤ) = (j : ℤ) := by omega
        exact Fin.ext (by omega)
    rw [hab.1, hab.2]
  show idx77.foldl
      (subReplaceStep (cx : ℚ) (cy : ℚ) (GetSubQuadrant (cx : ℚ) (cy : ℚ) x y).1
        (GetSubQuadrant (cx : ℚ) (cy : ℚ) x y).2
        (GenerateNeighboringPoints7 F (mkNoise F cfg) cx cy))
      (freshSubPoints F (mkNoise F cfg) cx cy
        (GetSubQuadrant (cx : ℚ) (cy : ℚ) x y).1
        (GetSubQuadrant (cx : ℚ) (cy : ℚ) x y).2) k l =
    GenerateNeighboringPoints7 F (mkNoise F cfg) cx cy i j
  exact subfold_hit (cx : ℚ) (cy : ℚ) (GetSubQuadrant (cx : ℚ) (cy : ℚ) x y).1
    (GetSubQuadrant (cx : ℚ) (cy : ℚ) x y).2
    (GenerateNeighboringPoints7 F (mkNoise F cfg) cx cy) k l idx77 _ (i, j)
    (mem_idx77 (i, j)) htgt huniq

/-- C6 witness: with the trivial fixture, eps = 1/4, cell (0, 0) and query
(1/4, 1/4), the fresh halved point at position (3, 3) has quadrant address
(1, 1), the same as the level-1 point of cell (0, 0), and the replacement loop
indeed leaves that exact level-1 point at position (3, 3). -/
theorem claim_C6_witness :
    ((∀ s : ℤ, epsConfig.eps ≤ (trivFixture.draw s).1 ∧
        (trivFixture.draw s).1 ≤ 1 - epsConfig.eps ∧
        epsConfig.eps ≤ (trivFixture.draw s).2 ∧
        (trivFixture.draw s).2 ≤ 1 - epsConfig.eps) ∧
     0 < epsConfig.eps ∧
     GetSubQuadrant ((0 : ℤ) : ℚ) ((0 : ℤ) : ℚ)
        (freshSubPoints trivFixture (mkNoise trivFixture epsConfig) 0 0
          (GetSubQuadrant ((0 : ℤ) : ℚ) ((0 : ℤ) : ℚ) (1 / 4) (1 / 4)).1
          (GetSubQuadrant ((0 : ℤ) : ℚ) ((0 : ℤ) : ℚ) (1 / 4) (1 / 4)).2 3 3).x
        (freshSubPoints trivFixture (mkNoise trivFixture epsConfig) 0 0
          (GetSubQuadrant ((0 : ℤ) : ℚ) ((0 : ℤ) : ℚ) (1 / 4) (1 / 4)).1
          (GetSubQuadrant ((0 : ℤ) : ℚ) ((0 : ℤ) : ℚ) (1 / 4) (1 / 4)).2 3 3).y =
      GetSubQuadrant ((0 : ℤ) : ℚ) ((0 : ℤ) : ℚ)
        (GenerateNeighboringPoints7 trivFixture (mkNoise trivFixture epsConfig) 0 0 3 3).x
        (GenerateNeighboringPoints7 trivFixture (mkNoise trivFixture epsConfig) 0 0 3 3).y) ∧
    GenerateNeighboringSubPoints trivFixture (mkNoise trivFixture epsConfig) 0 0
        (1 / 4) (1 / 4)
        (GenerateNeighboringPoints7 trivFixture (mkNoise trivFixture epsConfig) 0 0) 3 3 =
      GenerateNeighboringPoints7 trivFixture (mkNoise trivFixture epsConfig) 0 0 3 3 :=
  ⟨⟨fun _ => by norm_num [trivFixture, epsConfig],
    by norm_num [epsConfig],
    by with_unfolding_all decide⟩,
   claim_C6_boundary trivFixture epsConfig 0 0 (1 / 4) (1 / 4) 3 3 3 3
     (fun _ => by norm_num [trivFixture, epsConfig])
     (by norm_num [epsConfig])
     (by with_unfolding_all decide)⟩

end NoiseSpec
